import Mathlib

/-!
Verification of the lumenpdf-studio tool-orchestration and export engine
(`src-tauri/src/sign.rs`, `compress.rs`, `merge.rs`, `split.rs`).

The Rust code is shallowly embedded: the filesystem is an explicit state
(association list of paths to byte lists plus a directory set), external
processes are oracles supplying their observable outcome, and each Tauri
command becomes a pure Lean function that returns the new state, a trace of
observable events, and the command's result.  Bytes are `Nat` values
(< 256 in practice), paths are component lists (sign) or plain strings
(merge / compress / split), mirroring how each Rust module manipulates them
(`PathBuf` operations versus `format!`-built strings).
-/

namespace LumenPdf

/-- Does the second list start with the first? -/
def listStartsWith {α : Type} [DecidableEq α] : List α → List α → Bool
  | [], _ => true
  | _ :: _, [] => false
  | p :: ps, h :: hs => if p = h then listStartsWith ps hs else false

/-- Does the second list contain the first as a contiguous sublist?
Models Rust `str::contains` / `memmem::find(..).is_some()`. -/
def listHasSub {α : Type} [DecidableEq α] (pat : List α) : List α → Bool
  | [] => listStartsWith pat []
  | h :: hs => listStartsWith pat (h :: hs) || listHasSub pat hs

/-- Substring test on strings, modelling Rust `str::contains`. -/
def strContains (hay pat : String) : Bool :=
  listHasSub pat.data hay.data

/-- ASCII lowercasing of a character, modelling Rust `to_ascii_lowercase`. -/
def asciiLowerChar (c : Char) : Char :=
  if 'A' ≤ c ∧ c ≤ 'Z' then Char.ofNat (c.toNat + 32) else c

/-- ASCII lowercasing of a string, modelling Rust `to_ascii_lowercase`. -/
def asciiLower (s : String) : String :=
  String.mk (s.data.map asciiLowerChar)

/-- Decimal rendering zero-padded to width ≥ 2, modelling Rust `{:02}`. -/
def format02 (n : Nat) : String :=
  if n < 10 then "0" ++ toString n else toString n

/-- Decimal rendering zero-padded to width ≥ 3, modelling Rust `{:03}`. -/
def format03 (n : Nat) : String :=
  if n < 10 then "00" ++ toString n
  else if n < 100 then "0" ++ toString n
  else toString n

end LumenPdf

namespace Sign

/-- Error codes of `sign.rs` (`enum SignErrorCode`).  `eInvalidArg` is raised
on base64 decode failure and `eInvalidPdf` on signature-validation failure;
the spec's taxonomy groups these two as PayloadInvalid, and `eExists` is the
spec's DestinationConflict. -/
inductive ErrorCode
  | eCancelled
  | eInvalidPdf
  | eInvalidArg
  | eExists
  | ePermission
  | eIoErr
  | eUnknown
deriving DecidableEq, Repr

/-- A path as a list of components; `dropLast` models `Path::parent`. -/
abbrev Path := List String

/-- Byte strings as lists of `Nat` byte values. -/
abbrev Bytes := List Nat

/-- Association-list lookup of a file's bytes. -/
def lookupF : List (Path × Bytes) → Path → Option Bytes
  | [], _ => none
  | (q, d) :: rest, p => if p = q then some d else lookupF rest p

/-- Remove all entries for a path. -/
def removeF : List (Path × Bytes) → Path → List (Path × Bytes)
  | [], _ => []
  | (q, d) :: rest, p => if p = q then removeF rest p else (q, d) :: removeF rest p

/-- Directory-set membership. -/
def containsD : List Path → Path → Bool
  | [], _ => false
  | q :: rest, p => if p = q then true else containsD rest p

/-- The filesystem state seen by the export transaction: file contents plus
the set of existing directories. -/
structure FS where
  files : List (Path × Bytes)
  dirs : List Path
deriving Repr

def FS.lookupFile (fs : FS) (p : Path) : Option Bytes := lookupF fs.files p

def FS.fileExists (fs : FS) (p : Path) : Bool := (lookupF fs.files p).isSome

def FS.dirExists (fs : FS) (p : Path) : Bool := containsD fs.dirs p

def FS.setFile (fs : FS) (p : Path) (d : Bytes) : FS :=
  { fs with files := (p, d) :: removeF fs.files p }

def FS.removeFile (fs : FS) (p : Path) : FS :=
  { fs with files := removeF fs.files p }

/-- Observable events of one `sign_and_export_pdf` call: the progress events
emitted on the `sign:progress` channel and the filesystem actions of
`atomic_write_all`, in program order. -/
inductive Event
  | prepare
  | write
  | done (path : Path)
  | error (code : ErrorCode)
  | createTempIn (dir : Path) (name : String)
  | writeTemp (data : Bytes)
  | flushTemp
  | syncTemp
  | removeFile (p : Path)
  | renameTempTo (p : Path)
deriving DecidableEq, Repr

/-- Sextet value of a base64 alphabet character (STANDARD alphabet). -/
def b64Val (c : Char) : Option Nat :=
  if 'A' ≤ c ∧ c ≤ 'Z' then some (c.toNat - 65)
  else if 'a' ≤ c ∧ c ≤ 'z' then some (c.toNat - 71)
  else if '0' ≤ c ∧ c ≤ '9' then some (c.toNat + 4)
  else if c = '+' then some 62
  else if c = '/' then some 63
  else none

/-- Decode base64 in blocks of four characters with canonical `=` padding
and zero trailing bits, modelling the crate's `general_purpose::STANDARD`
engine used by `decode_b64`. -/
def decodeGroups : List Char → Option Bytes
  | [] => some []
  | a :: b :: c :: d :: rest =>
    match b64Val a, b64Val b with
    | some va, some vb =>
      if c = '=' then
        if d = '=' ∧ rest = [] ∧ vb % 16 = 0 then
          some [va * 4 + vb / 16]
        else none
      else
        match b64Val c with
        | some vc =>
          if d = '=' then
            if rest = [] ∧ vc % 4 = 0 then
              some [va * 4 + vb / 16, (vb % 16) * 16 + vc / 4]
            else none
          else
            match b64Val d with
            | some vd =>
              (decodeGroups rest).map
                (fun t => (va * 4 + vb / 16) :: ((vb % 16) * 16 + vc / 4) ::
                          ((vc % 4) * 64 + vd) :: t)
            | none => none
        | none => none
    | _, _ => none
  | _ => none

/-- Model of `decode_b64` of sign.rs: strict standard base64 with required padding. -/
def decode_b64 (s : String) : Option Bytes := decodeGroups s.data

/-- The header signature `%PDF-` as bytes. -/
def pdfHeader : Bytes := [0x25, 0x50, 0x44, 0x46, 0x2D]

/-- The trailer marker `%%EOF` as bytes. -/
def pdfTrailer : Bytes := [0x25, 0x25, 0x45, 0x4F, 0x46]

/-- Model of `validate_pdf` of sign.rs: length ≥ 8, `%PDF-` at the start, and `%%EOF`
somewhere within the final 4096 bytes (`saturating_sub` is Nat subtraction). -/
def validate_pdf (bytes : Bytes) : Bool :=
  if bytes.length < 8 then false
  else
    let head_ok := LumenPdf.listStartsWith pdfHeader bytes
    let tail := bytes.drop (bytes.length - 4096)
    let tail_ok := LumenPdf.listHasSub pdfTrailer tail
    head_ok && tail_ok

/-- Model of `atomic_write_all` of sign.rs over the explicit filesystem.  `tmpName` is
the fresh name chosen by `NamedTempFile::new_in(dir)`.  Returns the new
filesystem, the filesystem events in program order, and the result. -/
def atomic_write_all (fs : FS) (path : Path) (data : Bytes) (overwrite : Bool)
    (tmpName : String) : FS × List Event × Except ErrorCode Nat :=
  if path = [] then (fs, [], .error .eInvalidArg)
  else
    let dir := path.dropLast
    if ¬ fs.dirExists dir then (fs, [], .error .ePermission)
    else if ¬ overwrite ∧ fs.fileExists path then (fs, [], .error .eExists)
    else
      let tmpPath := dir ++ [tmpName]
      let fs1 := fs.setFile tmpPath data
      let evs1 : List Event :=
        [.createTempIn dir tmpName, .writeTemp data, .flushTemp, .syncTemp]
      let step2 : FS × List Event :=
        if overwrite ∧ fs.fileExists path then
          (fs1.removeFile path, [.removeFile path])
        else (fs1, [])
      let fs3 := (step2.1.removeFile tmpPath).setFile path data
      (fs3, evs1 ++ step2.2 ++ [.renameTempTo path], .ok data.length)

/-- The deserialized command payload (`SignAndExportPayload`). -/
structure Payload where
  pdfBytesB64 : String
  suggestedName : Option String
  targetPath : Option Path
  overwrite : Option Bool

/-- Successful result (`SignExportOk`, minus wall-clock time). -/
structure ExportOk where
  path : Path
  bytesWritten : Nat
deriving DecidableEq, Repr

/-- Model of `resolve_output_path`: an explicit target wins; otherwise the save-dialog
collaborator's answer is used, a cancelled dialog yielding the empty path. -/
def resolve_output_path (payload : Payload) (dialog : Option Path) : Path :=
  match payload.targetPath with
  | some p => p
  | none => dialog.getD []

/-- Model of `sign_and_export_pdf` of sign.rs, after the export lock is held: decode,
validate, resolve the destination, check the conflict, atomically write.
`dialog` is the save-dialog oracle and `tmpName` the fresh temp-file name. -/
def sign_and_export_pdf (fs : FS) (payload : Payload) (dialog : Option Path)
    (tmpName : String) : FS × List Event × Except ErrorCode ExportOk :=
  let evs0 : List Event := [.prepare]
  let overwrite := payload.overwrite.getD false
  match decode_b64 payload.pdfBytesB64 with
  | none => (fs, evs0 ++ [.error .eInvalidArg], .error .eInvalidArg)
  | some bytes =>
    if validate_pdf bytes = false then
      (fs, evs0 ++ [.error .eInvalidPdf], .error .eInvalidPdf)
    else
      let outPath := resolve_output_path payload dialog
      if outPath = [] then
        (fs, evs0 ++ [.error .eCancelled], .error .eCancelled)
      else if ¬ overwrite ∧ fs.fileExists outPath then
        (fs, evs0 ++ [.error .eExists], .error .eExists)
      else
        let w := atomic_write_all fs outPath bytes overwrite tmpName
        match w.2.2 with
        | .error c => (w.1, evs0 ++ [.write] ++ w.2.1 ++ [.error c], .error c)
        | .ok n =>
          (w.1, evs0 ++ [.write] ++ w.2.1 ++ [.done outPath],
           .ok ⟨outPath, n⟩)

end Sign

namespace Compress

/-- Captured output of an external process run (`std::process::Output`);
`none` at a call site models spawn failure. -/
structure ProcOutput where
  success : Bool
  stdout : String
  stderr : String
deriving DecidableEq, Repr

/-- Model of `verify_qpdf` of compress.rs over the captured `--version` run: spawn
failure, non-zero exit, and a standard output whose ASCII-lowercasing lacks
the token `qpdf` are all rejected. -/
def verify_qpdf (run : Option ProcOutput) : Except String Unit :=
  match run with
  | none => .error "qpdf 校验失败"
  | some out =>
    if out.success = false then
      .error ("qpdf --version 非0：" ++ out.stderr)
    else if LumenPdf.strContains (LumenPdf.asciiLower out.stdout) "qpdf" = false then
      .error ("检测到的不是 qpdf CLI（stdout: " ++ out.stdout ++ "）")
    else .ok ()

/-- Model of `verify_gs` of compress.rs over the captured `-v` run: spawn failure and
non-zero exit are rejected; standard output is not inspected. -/
def verify_gs (run : Option ProcOutput) : Except String Unit :=
  match run with
  | none => .error "执行失败"
  | some out =>
    if out.success = false then
      .error ("Ghostscript 启动失败：" ++ out.stderr)
    else .ok ()

/-- Compression presets (`enum CompressPreset`). -/
inductive Preset
  | lossless
  | small
  | smaller
  | tiny
deriving DecidableEq, Repr

/-- Tool-dispatch events of one `run_path` call, in program order.
`gsTried` marks the call into `gs_lossy` (locate + verify + run);
`fallbackLogged` is the `eprintln!` diagnostic; `qpdfInvoked` marks the call
into `qpdf_lossless`. -/
inductive RpEvent
  | gsTried
  | fallbackLogged (msg : String)
  | qpdfInvoked
deriving DecidableEq, Repr

/-- Model of `run_path` of compress.rs: `Lossless` goes straight to the lossless tool;
any lossy preset first tries the raster-rewrite tool and, on any failure
(not found, verification failure, spawn failure, non-zero exit — all `Err`
out of `gs_lossy`), logs the failure and falls back to the lossless tool.
The outcomes of `gs_lossy` and `qpdf_lossless` are supplied as oracles. -/
def run_path (preset : Preset) (gs : Except String Unit)
    (qpdf : Except String Unit) : List RpEvent × Except String Unit :=
  match preset with
  | .lossless => ([.qpdfInvoked], qpdf)
  | _ =>
    match gs with
    | .ok () => ([.gsTried], .ok ())
    | .error e => ([.gsTried, .fallbackLogged e, .qpdfInvoked], qpdf)

/-- Abstract directory-tree oracle for the tool locators: which files exist,
which paths are directories, and the entries a directory scan yields. -/
structure DirFS where
  fileExists : List String → Bool
  isDir : List String → Bool
  readDir : List String → List String

/-- Joining path components for display inside environment-variable values
(`Path::display`). -/
def pathDisplay (p : List String) : String := String.intercalate "/" p

/-- A resolved Ghostscript installation: the accepted base directory (the
root itself or a version subdirectory), its `bin` directory, the executable,
and the derived environment variables — exactly what `find_gs` returns. -/
structure GsResolved where
  base : List String
  bin : List String
  exe : List String
  envs : List (String × String)
deriving DecidableEq, Repr

/-- The environment variables `find_gs` derives for an accepted base:
`GS_LIB` joining the `lib` and `Resource` siblings, plus `GS_FONTPATH`
exactly when a `fonts` directory is present. -/
def gsEnvs (fs : DirFS) (base : List String) : List (String × String) :=
  let lib := base ++ ["lib"]
  let resource := base ++ ["Resource"]
  let fonts := base ++ ["fonts"]
  let e0 := [("GS_LIB", pathDisplay lib ++ ";" ++ pathDisplay resource)]
  if fs.isDir fonts then e0 ++ [("GS_FONTPATH", pathDisplay fonts)] else e0

/-- One candidate base directory of `find_gs`: the executable must exist at
`base/bin/gswin64c.exe` and both required siblings `base/lib` and
`base/Resource` must be directories; only then is the candidate accepted. -/
def gsCandidate (fs : DirFS) (base : List String) : Option GsResolved :=
  let bin := base ++ ["bin"]
  let exe := bin ++ ["gswin64c.exe"]
  if fs.fileExists exe then
    if fs.isDir (base ++ ["lib"]) ∧ fs.isDir (base ++ ["Resource"]) then
      some ⟨base, bin, exe, gsEnvs fs base⟩
    else none
  else none

/-- First `some` produced by `f` along a list. -/
def firstSome {α β : Type} (f : α → Option β) : List α → Option β
  | [] => none
  | x :: xs =>
    match f x with
    | some r => some r
    | none => firstSome f xs

/-- Model of `find_gs` restricted to one root: try the flat layout at the root, then
scan the root's entries for a version subdirectory with the same layout. -/
def find_gs_root (fs : DirFS) (root : List String) : Option GsResolved :=
  match gsCandidate fs root with
  | some r => some r
  | none =>
    firstSome
      (fun name =>
        let vdir := root ++ [name]
        if fs.isDir vdir then gsCandidate fs vdir else none)
      (fs.readDir root)

/-- Model of `find_gs` of compress.rs over its ordered candidate roots (the
development-relative root followed by the packaged-resource root). -/
def find_gs (fs : DirFS) (roots : List (List String)) : Option GsResolved :=
  firstSome (find_gs_root fs) roots

/-- A concrete flat Ghostscript layout for instantiating the locator
theorems: executable, `lib`, `Resource` and `fonts` all present under one
root, nothing else. -/
def flatLayoutFS : DirFS :=
  ⟨fun p => p == ["root", "bin", "gswin64c.exe"],
   fun p => p == ["root", "lib"] || p == ["root", "Resource"] || p == ["root", "fonts"],
   fun _ => []⟩

end Compress

namespace Merge

/-- Model of `sanitize` of merge.rs / compress.rs: forbidden path characters become
underscores. -/
def sanitize (name : String) : String :=
  String.mk (name.data.map (fun c =>
    match c with
    | '/' => '_' | '\\' => '_' | ':' => '_' | '*' => '_' | '?' => '_'
    | '"' => '_' | '<' => '_' | '>' => '_' | '|' => '_'
    | _ => c))

/-- Model of `build_args_merge_paths` of merge.rs:
`qpdf --empty --pages f1 1-z f2 1-z ... -- out`. -/
def build_args_merge_paths (paths : List String) (output : String) : List String :=
  ["--empty", "--pages"] ++ paths.flatMap (fun p => [p, "1-z"]) ++ ["--", output]

/-- Model of `assert_output_not_in_inputs` of merge.rs: reject when the canonicalized
output equals the canonicalized form of some input; `canon` models
`canonicalize().unwrap_or(path)`.  The first colliding input is reported. -/
def assert_output_not_in_inputs (canon : String → String) (paths : List String)
    (output : String) : Except String Unit :=
  match paths.find? (fun p => canon p = canon output) with
  | some p => .error ("输出路径不能与输入文件相同：" ++ p)
  | none => .ok ()

/-- Observable events of one `merge` call, in program order. -/
inductive Event
  | ensuredParent
  | createWorkDir (w : String)
  | wroteTemp (p : String)
  | qpdfRun (args : List String)
  | removeWorkDir (w : String) (ok : Bool)
deriving DecidableEq, Repr

/-- Model of `merge` of merge.rs on the path variant (`Inputs::Paths`): ensure the
parent directory, require at least two inputs, reject an output colliding
with an input, then run the lossless tool once with the merge argument
vector.  `ensureOk` and `runRes` are the filesystem/process oracles. -/
def merge_paths (paths : List String) (output : String) (canon : String → String)
    (ensureOk : Bool) (runRes : Except String Unit) :
    List Event × Except String String :=
  if ensureOk = false then ([], .error "创建输出目录失败")
  else if paths.length < 2 then ([.ensuredParent], .error "请选择至少两个 PDF（路径版）")
  else
    match assert_output_not_in_inputs canon paths output with
    | .error e => ([.ensuredParent], .error e)
    | .ok _ =>
      let args := build_args_merge_paths paths output
      match runRes with
      | .ok _ => ([.ensuredParent, .qpdfRun args], .ok output)
      | .error e => ([.ensuredParent, .qpdfRun args], .error e)

/-- An in-memory PDF input (`struct PdfIn`). -/
structure PdfIn where
  name : String
  data : List Nat
deriving Repr

/-- Staged temp-file path of input `i` inside the work directory, as built by
`write_temp_pdfs`: `work/{i:03}_{sanitize(name)}`. -/
def tempPathOf (work : String) (i : Nat) (p : PdfIn) : String :=
  work ++ "/" ++ LumenPdf.format03 i ++ "_" ++ sanitize p.name

/-- Model of the `identifier.replace('.', "_")` step of the work-directory naming. -/
def identSan (ident : String) : String :=
  String.mk (ident.data.map (fun c => if c = '.' then '_' else c))

/-- The work directory chosen by `write_temp_pdfs`:
`temp_dir/identifier('.'→'_')/merge_{ts}`. -/
def workDirOf (tmpRoot ident : String) (ts : Nat) : String :=
  tmpRoot ++ "/" ++ identSan ident ++ "/merge_" ++ toString ts

/-- Does staging fail?  The staging oracle `writeFailAt` only takes effect
when it names one of the inputs actually written. -/
def staging_fails (writeFailAt : Option Nat) (n : Nat) : Bool :=
  match writeFailAt with
  | some i => i < n
  | none => false

/-- Model of `merge` of merge.rs on the byte variant (`Inputs::Bytes`): after the
arity check, stage every input into a fresh work directory
(`writeFailAt i` makes the i-th staging write fail), run the collision
check against the staged paths, invoke the tool, and best-effort remove
the work directory (`rmOk` is the ignored removal outcome).  Early error
exits from staging or the collision check do not reach the removal. -/
def merge_bytes (tmpRoot ident : String) (ts : Nat) (items : List PdfIn)
    (output : String) (canon : String → String) (ensureOk : Bool)
    (mkdirOk : Bool) (writeFailAt : Option Nat)
    (runRes : Except String Unit) (rmOk : Bool) :
    List Event × Except String String :=
  if ensureOk = false then ([], .error "创建输出目录失败")
  else if items.length < 2 then ([.ensuredParent], .error "请选择至少两个 PDF（字节版）")
  else
    let work := workDirOf tmpRoot ident ts
    if mkdirOk = false then ([.ensuredParent], .error "创建临时目录失败")
    else if staging_fails writeFailAt items.length then
      ([.ensuredParent, .createWorkDir work] ++
         ((List.range (writeFailAt.getD 0)).map
           (fun j => .wroteTemp (tempPathOf work j (items.getD j ⟨"", []⟩)))),
       .error "写入临时文件失败")
    else
      let paths := (List.range items.length).map
        (fun j => tempPathOf work j (items.getD j ⟨"", []⟩))
      let evs0 : List Event :=
        [.ensuredParent, .createWorkDir work] ++ paths.map Event.wroteTemp
      match assert_output_not_in_inputs canon paths output with
      | .error e => (evs0, .error e)
      | .ok _ =>
        let args := build_args_merge_paths paths output
        match runRes with
        | .ok _ =>
          (evs0 ++ [.qpdfRun args, .removeWorkDir work rmOk], .ok output)
        | .error e =>
          (evs0 ++ [.qpdfRun args, .removeWorkDir work rmOk], .error e)

end Merge

namespace Compress

/-- Model of `assert_output_not_same` of compress.rs: reject when the canonicalized
input equals the canonicalized output. -/
def assert_output_not_same (canon : String → String) (input output : String) :
    Except String Unit :=
  if canon input = canon output then
    .error ("输出路径不能与输入文件相同：" ++ input)
  else .ok ()

/-- Observable events of one `compress` call, in program order. -/
inductive Event
  | ensuredParent
  | createWorkDir (w : String)
  | wroteTemp (p : String)
  | toolRun (rp : List RpEvent)
  | removeWorkDir (w : String) (ok : Bool)
deriving DecidableEq, Repr

/-- Model of `compress` of compress.rs on the path variant (`InputOne::Path`): ensure
the parent directory, reject an output colliding with the input, dispatch
through `run_path`. -/
def compress_path (input output : String) (preset : Preset)
    (canon : String → String) (ensureOk : Bool)
    (gs qpdf : Except String Unit) : List Event × Except String String :=
  if ensureOk = false then ([], .error "创建输出目录失败")
  else
    match assert_output_not_same canon input output with
    | .error e => ([.ensuredParent], .error e)
    | .ok _ =>
      let r := run_path preset gs qpdf
      match r.2 with
      | .ok _ => ([.ensuredParent, .toolRun r.1], .ok output)
      | .error e => ([.ensuredParent, .toolRun r.1], .error e)

/-- The work directory chosen by `write_temp_pdf`:
`temp_dir/identifier('.'→'_')/compress_{ts}`. -/
def workDirOf (tmpRoot ident : String) (ts : Nat) : String :=
  tmpRoot ++ "/" ++ Merge.identSan ident ++ "/compress_" ++ toString ts

/-- Model of `compress` of compress.rs on the byte variant (`InputOne::Bytes`): stage
the single input into a fresh work directory (`write_temp_pdf`), run the
collision check against the staged path, dispatch through `run_path`, and
best-effort remove the work directory (`rmOk` is the ignored removal
outcome).  Early error exits from staging or the collision check do not
reach the removal. -/
def compress_bytes (tmpRoot ident : String) (ts : Nat) (pdf : Merge.PdfIn)
    (output : String) (preset : Preset) (canon : String → String)
    (ensureOk mkdirOk writeOk : Bool) (gs qpdf : Except String Unit)
    (rmOk : Bool) : List Event × Except String String :=
  if ensureOk = false then ([], .error "创建输出目录失败")
  else
    let work := workDirOf tmpRoot ident ts
    if mkdirOk = false then ([.ensuredParent], .error "创建临时目录失败")
    else
      let inPath := work ++ "/" ++ Merge.sanitize pdf.name
      if writeOk = false then
        ([.ensuredParent, .createWorkDir work], .error "写入临时文件失败")
      else
        let evs0 : List Event :=
          [.ensuredParent, .createWorkDir work, .wroteTemp inPath]
        match assert_output_not_same canon inPath output with
        | .error e => (evs0, .error e)
        | .ok _ =>
          let r := run_path preset gs qpdf
          match r.2 with
          | .ok _ =>
            (evs0 ++ [.toolRun r.1, .removeWorkDir work rmOk], .ok output)
          | .error e =>
            (evs0 ++ [.toolRun r.1, .removeWorkDir work rmOk], .error e)

end Compress

namespace Split

/-- Outcome of one attempted qpdf invocation inside `split_pdf`: spawn
failure, captured non-zero exit with its stderr, or success. -/
inductive StepOutcome
  | spawnFail (msg : String)
  | nonZero (stderr : String)
  | success
deriving DecidableEq, Repr

/-- Model of the `safe` range token of split.rs: commas become underscores and spaces are
removed (`replace(',', "_").replace(' ', "")`). -/
def sanitizeRange (r : String) : String :=
  String.mk ((r.data.map (fun c => if c = ',' then '_' else c)).filter
    (fun c => c ≠ ' '))

/-- Output file path for the range at (0-based) index `i`:
`{outDir}/split_{i+1:02}_{safe}.pdf`. -/
def outName (outDir : String) (i : Nat) (r : String) : String :=
  outDir ++ "/split_" ++ LumenPdf.format02 (i + 1) ++ "_" ++ sanitizeRange r ++ ".pdf"

/-- Argument vector of the invocation for the range at index `i`:
`qpdf input --pages input r -- out`. -/
def splitArgsFor (input outDir : String) (i : Nat) (r : String) : List String :=
  [input, "--pages", input, r, "--", outName outDir i r]

/-- The loop of `split_pdf`: `produced` are the output files already on disk,
`invs` the argument vectors of the invocations attempted so far, and `exec`
the per-index process oracle.  On the first failure the loop stops, keeping
`produced` on disk; a spawn failure reports a generic message while a
non-zero exit reports the failing range token. -/
def splitGo (input outDir : String) (exec : Nat → StepOutcome) :
    Nat → List String → List (List String) → List String →
    List String × List (List String) × Except String (List String)
  | _, produced, invs, [] => (produced, invs, .ok produced)
  | i, produced, invs, r :: rest =>
    let out := outName outDir i r
    let args := splitArgsFor input outDir i r
    match exec i with
    | .spawnFail m => (produced, invs ++ [args], .error ("无法执行 qpdf：" ++ m))
    | .nonZero st =>
      (produced, invs ++ [args], .error ("qpdf 拆分失败（" ++ r ++ "）：" ++ st))
    | .success => splitGo input outDir exec (i + 1) (produced ++ [out]) (invs ++ [args]) rest

/-- Model of `split_pdf` of split.rs: reject an empty range list, then process the
ranges strictly in order.  Returns the output files on disk, the attempted
invocations in order, and the command result. -/
def split_pdf (input : String) (ranges : List String) (outDir : String)
    (exec : Nat → StepOutcome) :
    List String × List (List String) × Except String (List String) :=
  if ranges.isEmpty then ([], [], .error "请提供至少一个页范围")
  else splitGo input outDir exec 0 [] [] ranges

/-- The output names of `ranges` starting at index `i`, in order. -/
def splitOuts (outDir : String) : Nat → List String → List String
  | _, [] => []
  | i, r :: rest => outName outDir i r :: splitOuts outDir (i + 1) rest

/-- The invocation argument vectors of `ranges` starting at index `i`. -/
def splitArgsList (input outDir : String) : Nat → List String → List (List String)
  | _, [] => []
  | i, r :: rest => splitArgsFor input outDir i r :: splitArgsList input outDir (i + 1) rest

end Split

namespace Merge

/-- Does a merge trace contain no lossless-tool invocation? -/
def noToolRun (evs : List Event) : Bool :=
  evs.all (fun e => match e with | .qpdfRun _ => false | _ => true)

end Merge

namespace Compress

/-- Does a compress trace contain no tool dispatch? -/
def noToolRun (evs : List Event) : Bool :=
  evs.all (fun e => match e with | .toolRun _ => false | _ => true)

end Compress

namespace Conc

/-- The atomic steps of one export call as guarded by `EXPORT_LOCK`: acquire
the mutex, emit the Prepare and Write progress events, perform the committing
rename, emit the terminal event, and release the lock when the guard drops. -/
inductive Step
  | acquire
  | emitPrepare
  | emitWrite
  | writeDest
  | emitTerminal
  | release
deriving DecidableEq, Repr

/-- A step tagged with the export call (`false`/`true`) performing it. -/
abbrev TStep := Bool × Step

/-- The straight-line program of one `sign_and_export_pdf` call: every step
happens while holding the export lock, the terminal progress event before
the guard is dropped. -/
def exportProg (t : Bool) : List TStep :=
  [(t, .acquire), (t, .emitPrepare), (t, .emitWrite), (t, .writeDest),
   (t, .emitTerminal), (t, .release)]

/-- All interleavings of two step sequences, with enough fuel (structural in
the fuel so that concrete schedules evaluate). -/
def merges {α : Type} : Nat → List α → List α → List (List α)
  | 0, xs, ys => [xs ++ ys]
  | _ + 1, [], ys => [ys]
  | _ + 1, x :: xs, [] => [x :: xs]
  | n + 1, x :: xs, y :: ys =>
    ((merges n xs (y :: ys)).map (fun t => x :: t)) ++
    ((merges n (x :: xs) ys).map (fun t => y :: t))

/-- Mutual exclusion of the export lock along a schedule: `acquire` only
succeeds when nobody holds the lock, `release` only by the holder. -/
def lockOk : Option Bool → List TStep → Bool
  | _, [] => true
  | h, (t, Step.acquire) :: rest => decide (h = none) && lockOk (some t) rest
  | h, (t, Step.release) :: rest => decide (h = some t) && lockOk none rest
  | h, _ :: rest => lockOk h rest

/-- Index of the first occurrence of a step in a schedule (length if absent). -/
def idxOfStep (x : TStep) : List TStep → Nat
  | [] => 0
  | y :: ys => if x = y then 0 else idxOfStep x ys + 1

/-- Does `x` occur strictly before `y` in the schedule? -/
def stepBefore (tr : List TStep) (x y : TStep) : Bool :=
  Nat.blt (idxOfStep x tr) (idxOfStep y tr)

/-- The call whose committed write is last in the schedule, i.e. whose
payload the destination finally holds. -/
def lastWriter : List TStep → Option Bool
  | [] => none
  | (t, Step.writeDest) :: rest =>
    match lastWriter rest with
    | none => some t
    | some u => some u
  | _ :: rest => lastWriter rest

/-- The serialization property claimed for two concurrent exports: whichever
call acquires the lock first emits its terminal event before the other
call's Prepare event, and the destination finally holds exactly one of the
two payloads. -/
def serializedOk (tr : List TStep) : Bool :=
  (!(stepBefore tr (false, .acquire) (true, .acquire)) ||
     stepBefore tr (false, .emitTerminal) (true, .emitPrepare)) &&
  (!(stepBefore tr (true, .acquire) (false, .acquire)) ||
     stepBefore tr (true, .emitTerminal) (false, .emitPrepare)) &&
  (lastWriter tr == some false || lastWriter tr == some true)

/-- All schedules of two concurrent export calls. -/
def allSchedules : List (List TStep) :=
  merges 12 (exportProg false) (exportProg true)

end Conc


/-- C3: `run_path` with the `lossless` preset invokes only the lossless tool
and never tries the raster-rewrite tool; with any lossy preset the
raster-rewrite tool is tried first and, should it fail (unavailable or
non-zero exit, both surfacing as an error from `gs_lossy`), the failure is
logged on the diagnostic channel and the call transparently falls back to
the lossless tool, still returning success when the lossless tool
succeeds. -/
theorem compress_lossy_fallback (gs qpdf : Except String Unit)
    (preset : Compress.Preset) (hp : preset ≠ .lossless) :
    Compress.run_path .lossless gs qpdf = ([.qpdfInvoked], qpdf) ∧
    ((Compress.run_path preset gs qpdf).1.head? = some .gsTried) ∧
    (∀ e, gs = .error e →
       Compress.run_path preset gs qpdf =
         ([.gsTried, .fallbackLogged e, .qpdfInvoked], qpdf)) ∧
    (gs = .ok () → Compress.run_path preset gs qpdf = ([.gsTried], .ok ())) := by
  refine ⟨rfl, ?_, ?_, ?_⟩
  · cases preset with
    | lossless => exact absurd rfl hp
    | small => cases gs with | ok u => cases u; rfl | error e => rfl
    | smaller => cases gs with | ok u => cases u; rfl | error e => rfl
    | tiny => cases gs with | ok u => cases u; rfl | error e => rfl
  · intro e he
    subst he
    cases preset with
    | lossless => exact absurd rfl hp
    | small => rfl
    | smaller => rfl
    | tiny => rfl
  · intro hg
    subst hg
    cases preset with
    | lossless => exact absurd rfl hp
    | small => rfl
    | smaller => rfl
    | tiny => rfl

/-- C3 witness: the tiny preset with an unavailable raster-rewrite tool and a
working lossless tool. -/
theorem compress_lossy_fallback_witness :
    Compress.run_path .lossless (.error "未找到 Ghostscript") (.ok ()) = ([.qpdfInvoked], .ok ()) ∧
    ((Compress.run_path .tiny (.error "未找到 Ghostscript") (.ok ())).1.head? = some .gsTried) ∧
    (∀ e, (Except.error "未找到 Ghostscript" : Except String Unit) = .error e →
       Compress.run_path .tiny (.error "未找到 Ghostscript") (.ok ()) =
         ([.gsTried, .fallbackLogged e, .qpdfInvoked], .ok ())) ∧
    ((Except.error "未找到 Ghostscript" : Except String Unit) = .ok () →
       Compress.run_path .tiny (.error "未找到 Ghostscript") (.ok ()) = ([.gsTried], .ok ())) :=
  compress_lossy_fallback (.error "未找到 Ghostscript") (.ok ()) .tiny (by simp)

/-- C5 counterexample: the merge argument vector for two concrete inputs
combines the full page ranges but contains no `--linearize` flag, so
"with output linearization enabled" is false for merge (the flag exists only
in the compress lossless path). -/
theorem merge_no_linearize_counterexample :
    Merge.build_args_merge_paths ["a.pdf", "b.pdf"] "out.pdf" =
      ["--empty", "--pages", "a.pdf", "1-z", "b.pdf", "1-z", "--", "out.pdf"] ∧
    "--linearize" ∉ Merge.build_args_merge_paths ["a.pdf", "b.pdf"] "out.pdf" := by
  constructor
  · rfl
  · decide

/-- C5 amended: for every merge call with at least two sources that reaches
the tool — path sources used directly, or byte sources staged into the work
directory in input order — exactly one lossless-tool argument vector is
built, combining every input's full page range (`1-z`) in input order into
the output; no linearization flag is passed. -/
theorem merge_single_invocation (paths : List String) (output : String)
    (canon : String → String) (runRes : Except String Unit)
    (h2 : 2 ≤ paths.length)
    (hcol : Merge.assert_output_not_in_inputs canon paths output = .ok ())
    (tmpRoot ident : String) (ts : Nat) (items : List Merge.PdfIn)
    (outputB : String) (canonB : String → String) (runB : Except String Unit)
    (rmOk : Bool) (h2B : 2 ≤ items.length)
    (hcolB : Merge.assert_output_not_in_inputs canonB
        ((List.range items.length).map
          (fun j => Merge.tempPathOf (Merge.workDirOf tmpRoot ident ts) j
            (items.getD j ⟨"", []⟩))) outputB = .ok ()) :
    (Merge.merge_paths paths output canon true runRes).1 =
      [.ensuredParent, .qpdfRun (Merge.build_args_merge_paths paths output)] ∧
    Merge.build_args_merge_paths paths output =
      ["--empty", "--pages"] ++ paths.flatMap (fun p => [p, "1-z"]) ++ ["--", output] ∧
    (Merge.merge_bytes tmpRoot ident ts items outputB canonB true true none runB rmOk).1 =
      [.ensuredParent, .createWorkDir (Merge.workDirOf tmpRoot ident ts)] ++
        ((List.range items.length).map
          (fun j => Merge.tempPathOf (Merge.workDirOf tmpRoot ident ts) j
            (items.getD j ⟨"", []⟩))).map Merge.Event.wroteTemp ++
        [.qpdfRun (Merge.build_args_merge_paths
            ((List.range items.length).map
              (fun j => Merge.tempPathOf (Merge.workDirOf tmpRoot ident ts) j
                (items.getD j ⟨"", []⟩))) outputB),
         .removeWorkDir (Merge.workDirOf tmpRoot ident ts) rmOk] ∧
    Merge.build_args_merge_paths
        ((List.range items.length).map
          (fun j => Merge.tempPathOf (Merge.workDirOf tmpRoot ident ts) j
            (items.getD j ⟨"", []⟩))) outputB =
      ["--empty", "--pages"] ++
        ((List.range items.length).map
          (fun j => Merge.tempPathOf (Merge.workDirOf tmpRoot ident ts) j
            (items.getD j ⟨"", []⟩))).flatMap (fun p => [p, "1-z"]) ++
        ["--", outputB] := by
  have hlt : ¬ paths.length < 2 := Nat.not_lt.mpr h2
  have hltB : ¬ items.length < 2 := Nat.not_lt.mpr h2B
  refine ⟨?_, rfl, ?_, rfl⟩
  · unfold Merge.merge_paths
    rw [hcol]
    simp only [Bool.true_eq_false, if_false, if_neg hlt]
    cases runRes with
    | ok u => rfl
    | error e => rfl
  · simp only [Merge.merge_bytes, Merge.staging_fails, hcolB, hltB, if_false,
      Bool.true_eq_false]
    cases runB with
    | ok u => simp [hltB]
    | error e => simp [hltB]

/-- C5 amended witness: two concrete inputs for each variant, identity
canonicalization, successful runs. -/
theorem merge_single_invocation_witness :
    (Merge.merge_paths ["a.pdf", "b.pdf"] "out.pdf" id true (.ok ())).1 =
      [.ensuredParent, .qpdfRun (Merge.build_args_merge_paths ["a.pdf", "b.pdf"] "out.pdf")] ∧
    Merge.build_args_merge_paths ["a.pdf", "b.pdf"] "out.pdf" =
      ["--empty", "--pages"] ++ (["a.pdf", "b.pdf"] : List String).flatMap (fun p => [p, "1-z"]) ++ ["--", "out.pdf"] ∧
    (Merge.merge_bytes "/tmp" "com.app" 1 [⟨"a.pdf", []⟩, ⟨"b.pdf", []⟩] "merged.pdf" id
        true true none (.ok ()) true).1 =
      [.ensuredParent, .createWorkDir (Merge.workDirOf "/tmp" "com.app" 1)] ++
        ((List.range ([⟨"a.pdf", []⟩, ⟨"b.pdf", []⟩] : List Merge.PdfIn).length).map
          (fun j => Merge.tempPathOf (Merge.workDirOf "/tmp" "com.app" 1) j
            (([⟨"a.pdf", []⟩, ⟨"b.pdf", []⟩] : List Merge.PdfIn).getD j ⟨"", []⟩))).map
          Merge.Event.wroteTemp ++
        [.qpdfRun (Merge.build_args_merge_paths
            ((List.range ([⟨"a.pdf", []⟩, ⟨"b.pdf", []⟩] : List Merge.PdfIn).length).map
              (fun j => Merge.tempPathOf (Merge.workDirOf "/tmp" "com.app" 1) j
                (([⟨"a.pdf", []⟩, ⟨"b.pdf", []⟩] : List Merge.PdfIn).getD j ⟨"", []⟩)))
            "merged.pdf"),
         .removeWorkDir (Merge.workDirOf "/tmp" "com.app" 1) true] ∧
    Merge.build_args_merge_paths
        ((List.range ([⟨"a.pdf", []⟩, ⟨"b.pdf", []⟩] : List Merge.PdfIn).length).map
          (fun j => Merge.tempPathOf (Merge.workDirOf "/tmp" "com.app" 1) j
            (([⟨"a.pdf", []⟩, ⟨"b.pdf", []⟩] : List Merge.PdfIn).getD j ⟨"", []⟩)))
        "merged.pdf" =
      ["--empty", "--pages"] ++
        ((List.range ([⟨"a.pdf", []⟩, ⟨"b.pdf", []⟩] : List Merge.PdfIn).length).map
          (fun j => Merge.tempPathOf (Merge.workDirOf "/tmp" "com.app" 1) j
            (([⟨"a.pdf", []⟩, ⟨"b.pdf", []⟩] : List Merge.PdfIn).getD j ⟨"", []⟩))).flatMap
          (fun p => [p, "1-z"]) ++
        ["--", "merged.pdf"] :=
  merge_single_invocation ["a.pdf", "b.pdf"] "out.pdf" id (.ok ()) (by decide) (by rfl)
    "/tmp" "com.app" 1 [⟨"a.pdf", []⟩, ⟨"b.pdf", []⟩] "merged.pdf" id (.ok ()) true
    (by decide) (by rfl)

/-- C7 counterexample: a resolved raster-rewrite tool whose `-v` run exits
successfully with empty standard output passes `verify_gs`, although the
output contains no self-identifying token (`gs` / `ghostscript`); only the
lossless tool's verifier inspects standard output. -/
theorem verify_gs_no_token_counterexample :
    Compress.verify_gs (some ⟨true, "", ""⟩) = .ok () ∧
    LumenPdf.strContains (LumenPdf.asciiLower "") "gs" = false ∧
    LumenPdf.strContains (LumenPdf.asciiLower "") "ghostscript" = false :=
  ⟨rfl, rfl, rfl⟩

/-- C7 amended: the lossless tool's verification succeeds exactly when its
`--version` run exits successfully and its standard output contains the
case-insensitive token `qpdf`; the raster-rewrite tool's verification
requires only a successful exit of its `-v` run, without inspecting
standard output. -/
theorem verify_tools_characterization (run : Option Compress.ProcOutput) :
    (Compress.verify_qpdf run = .ok () ↔
       ∃ out, run = some out ∧ out.success = true ∧
         LumenPdf.strContains (LumenPdf.asciiLower out.stdout) "qpdf" = true) ∧
    (Compress.verify_gs run = .ok () ↔
       ∃ out, run = some out ∧ out.success = true) := by
  constructor
  · cases run with
    | none => simp [Compress.verify_qpdf]
    | some out =>
      simp only [Compress.verify_qpdf]
      cases hs : out.success with
      | false => simp [hs]
      | true =>
        cases ht : LumenPdf.strContains (LumenPdf.asciiLower out.stdout) "qpdf" with
        | false => simp [ht]
        | true => simp [ht, hs]
  · cases run with
    | none => simp [Compress.verify_gs]
    | some out =>
      simp only [Compress.verify_gs]
      cases hs : out.success with
      | false => simp [hs]
      | true => simp [hs]

/-- If some element of the list satisfies the predicate, `find?` succeeds. -/
theorem find?_isSome_of_mem {α : Type} (p : α → Bool) (l : List α) (x : α)
    (hm : x ∈ l) (hp : p x = true) : ∃ y, l.find? p = some y := by
  induction l with
  | nil => cases hm
  | cons a l ih =>
    by_cases ha : p a = true
    · exact ⟨a, by simp [List.find?, ha]⟩
    · have hne : x ≠ a := fun he => ha (he ▸ hp)
      have hm' : x ∈ l := by
        cases hm with
        | head => exact absurd rfl hne
        | tail _ h => exact h
      obtain ⟨y, hy⟩ := ih hm'
      exact ⟨y, by simp [List.find?, Bool.of_not_eq_true ha, hy]⟩

/-- C9: a merge call (path variant) whose output canonically equals one of
its inputs, and a compress call (path variant) whose output canonically
equals its input, both reject with an invalid-input error and their traces
contain no tool invocation. -/
theorem output_collision_rejected
    (paths : List String) (outputM : String) (canonM : String → String)
    (ensureM : Bool) (runM : Except String Unit) (pcol : String)
    (hmem : pcol ∈ paths) (hcM : canonM pcol = canonM outputM)
    (inputC outputC : String) (canonC : String → String) (ensureC : Bool)
    (preset : Compress.Preset) (gs qpdf : Except String Unit)
    (hcC : canonC inputC = canonC outputC) :
    (∃ e, (Merge.merge_paths paths outputM canonM ensureM runM).2 = .error e) ∧
    Merge.noToolRun (Merge.merge_paths paths outputM canonM ensureM runM).1 = true ∧
    (∃ e, (Compress.compress_path inputC outputC preset canonC ensureC gs qpdf).2 = .error e) ∧
    Compress.noToolRun (Compress.compress_path inputC outputC preset canonC ensureC gs qpdf).1 = true := by
  have hassert : ∃ q, paths.find? (fun p => canonM p = canonM outputM) = some q := by
    exact find?_isSome_of_mem _ paths pcol hmem (by simp [hcM])
  obtain ⟨q, hq⟩ := hassert
  have hMerge : Merge.assert_output_not_in_inputs canonM paths outputM =
      .error ("输出路径不能与输入文件相同：" ++ q) := by
    unfold Merge.assert_output_not_in_inputs
    rw [hq]
  refine ⟨?_, ?_, ?_, ?_⟩
  · unfold Merge.merge_paths
    cases ensureM with
    | false => exact ⟨_, rfl⟩
    | true =>
      by_cases hlen : paths.length < 2
      · simp [hlen]
      · simp [hlen, hMerge]
  · unfold Merge.merge_paths
    cases ensureM with
    | false => rfl
    | true =>
      by_cases hlen : paths.length < 2
      · simp [hlen]; rfl
      · simp [hlen, hMerge]; rfl
  · unfold Compress.compress_path
    cases ensureC with
    | false => exact ⟨_, rfl⟩
    | true =>
      have : Compress.assert_output_not_same canonC inputC outputC =
          .error ("输出路径不能与输入文件相同：" ++ inputC) := by
        unfold Compress.assert_output_not_same
        simp [hcC]
      simp [this]
  · unfold Compress.compress_path
    cases ensureC with
    | false => rfl
    | true =>
      have : Compress.assert_output_not_same canonC inputC outputC =
          .error ("输出路径不能与输入文件相同：" ++ inputC) := by
        unfold Compress.assert_output_not_same
        simp [hcC]
      simp [this]; rfl

/-- C9 witness: output literally equal to an input under identity
canonicalization, for both merge and compress. -/
theorem output_collision_rejected_witness :
    (∃ e, (Merge.merge_paths ["a.pdf", "b.pdf"] "a.pdf" id true (.ok ())).2 = .error e) ∧
    Merge.noToolRun (Merge.merge_paths ["a.pdf", "b.pdf"] "a.pdf" id true (.ok ())).1 = true ∧
    (∃ e, (Compress.compress_path "in.pdf" "in.pdf" .tiny id true (.ok ()) (.ok ())).2 = .error e) ∧
    Compress.noToolRun (Compress.compress_path "in.pdf" "in.pdf" .tiny id true (.ok ()) (.ok ())).1 = true :=
  output_collision_rejected ["a.pdf", "b.pdf"] "a.pdf" id true (.ok ()) "a.pdf"
    (by decide) rfl "in.pdf" "in.pdf" id true .tiny (.ok ()) (.ok ()) rfl

namespace Split

/-- When every remaining invocation succeeds, the loop produces one output
and one invocation per range, in order. -/
theorem splitGo_all_success (input outDir : String) (exec : Nat → StepOutcome) :
    ∀ (rest : List String) (i : Nat) (produced : List String) (invs : List (List String)),
    (∀ j, j < rest.length → exec (i + j) = .success) →
    splitGo input outDir exec i produced invs rest =
      (produced ++ splitOuts outDir i rest,
       invs ++ splitArgsList input outDir i rest,
       .ok (produced ++ splitOuts outDir i rest)) := by
  intro rest
  induction rest with
  | nil => intro i produced invs _; simp [splitGo, splitOuts, splitArgsList]
  | cons r rest ih =>
    intro i produced invs h
    have h0 : exec i = .success := by
      have := h 0 (Nat.succ_pos _)
      simpa using this
    have hrec := ih (i + 1) (produced ++ [outName outDir i r])
      (invs ++ [splitArgsFor input outDir i r])
      (fun j hj => by
        have := h (j + 1) (Nat.succ_lt_succ hj)
        simpa [Nat.add_assoc, Nat.add_comm, Nat.add_left_comm] using this)
    simp only [splitGo, h0]
    rw [hrec]
    simp [splitOuts, splitArgsList, List.append_assoc]

/-- When the invocations before relative position `k` succeed and the one at
`k` exits non-zero, the loop stops there: the outputs of the earlier ranges
remain, the invocations up to and including `k` were attempted in order, and
the error names the failing range token. -/
theorem splitGo_nonzero_at (input outDir : String) (exec : Nat → StepOutcome) :
    ∀ (rest : List String) (k i : Nat) (produced : List String) (invs : List (List String)) (st : String),
    k < rest.length →
    (∀ j, j < k → exec (i + j) = .success) →
    exec (i + k) = .nonZero st →
    splitGo input outDir exec i produced invs rest =
      (produced ++ splitOuts outDir i (rest.take k),
       invs ++ splitArgsList input outDir i (rest.take k) ++
         [splitArgsFor input outDir (i + k) (rest.getD k "")],
       .error ("qpdf 拆分失败（" ++ rest.getD k "" ++ "）：" ++ st)) := by
  intro rest
  induction rest with
  | nil => intro k i _ _ _ hk; cases hk
  | cons r rest ih =>
    intro k i produced invs st hk hpre hfail
    cases k with
    | zero =>
      have h0 : exec i = .nonZero st := by simpa using hfail
      simp [splitGo, h0, splitOuts, splitArgsList, List.getD]
    | succ k =>
      have h0 : exec i = .success := by
        have := hpre 0 (Nat.succ_pos _)
        simpa using this
      have hrec := ih k (i + 1) (produced ++ [outName outDir i r])
        (invs ++ [splitArgsFor input outDir i r]) st
        (Nat.lt_of_succ_lt_succ hk)
        (fun j hj => by
          have := hpre (j + 1) (Nat.succ_lt_succ hj)
          simpa [Nat.add_assoc, Nat.add_comm, Nat.add_left_comm] using this)
        (by
          have : i + (k + 1) = i + 1 + k := by omega
          rw [this] at hfail
          exact hfail)
      simp only [splitGo, h0]
      rw [hrec]
      have harith : i + 1 + k = i + (k + 1) := by omega
      simp [splitOuts, splitArgsList, List.append_assoc, List.getD, harith]

end Split

/-- C4 counterexample: with ranges `["1-3", "8"]`, a successful first
invocation and a process-spawn failure on the second, the call aborts and
keeps the first output on disk, but the returned error is the generic spawn
message, which does not reference the failing token `"8"`. -/
theorem split_spawnfail_counterexample :
    Split.split_pdf "in.pdf" ["1-3", "8"] "out"
        (fun i => if i = 0 then .success else .spawnFail "program not found") =
      (["out/split_01_1-3.pdf"],
       [["in.pdf", "--pages", "in.pdf", "1-3", "--", "out/split_01_1-3.pdf"],
        ["in.pdf", "--pages", "in.pdf", "8", "--", "out/split_02_8.pdf"]],
       .error "无法执行 qpdf：program not found") ∧
    LumenPdf.strContains "无法执行 qpdf：program not found" "8" = false := by
  constructor
  · rfl
  · rfl

/-- C4 amended: for every split call with a non-empty range list, one
lossless-tool invocation is issued per token strictly in list order, each
output named `split_<1-based ordinal zero-padded to ≥ 2 digits>_<sanitized
token>.pdf`; on the first token whose invocation exits non-zero, processing
aborts, the returned error references that token, and the outputs already
produced for earlier tokens remain on disk (a process-spawn failure likewise
aborts and keeps earlier outputs, but its error is a generic message); on
success the produced paths are returned in token order. -/
theorem split_ranges_in_order (input outDir : String) (ranges : List String)
    (exec : Nat → Split.StepOutcome) (hne : ranges ≠ []) :
    ((∀ j, j < ranges.length → exec j = .success) →
       Split.split_pdf input ranges outDir exec =
         (Split.splitOuts outDir 0 ranges,
          Split.splitArgsList input outDir 0 ranges,
          .ok (Split.splitOuts outDir 0 ranges))) ∧
    (∀ k st, k < ranges.length → (∀ j, j < k → exec j = .success) →
       exec k = .nonZero st →
       Split.split_pdf input ranges outDir exec =
         (Split.splitOuts outDir 0 (ranges.take k),
          Split.splitArgsList input outDir 0 (ranges.take k) ++
            [Split.splitArgsFor input outDir k (ranges.getD k "")],
          .error ("qpdf 拆分失败（" ++ ranges.getD k "" ++ "）：" ++ st))) := by
  have hemp : ranges.isEmpty = false := by
    cases ranges with
    | nil => exact absurd rfl hne
    | cons r rest => rfl
  constructor
  · intro hall
    unfold Split.split_pdf
    rw [hemp]
    have := Split.splitGo_all_success input outDir exec ranges 0 [] []
      (fun j hj => by simpa using hall j hj)
    simpa using this
  · intro k st hk hpre hfail
    unfold Split.split_pdf
    rw [hemp]
    have := Split.splitGo_nonzero_at input outDir exec ranges k 0 [] [] st hk
      (fun j hj => by simpa using hpre j hj)
      (by simpa using hfail)
    simpa using this

/-- C4 amended witness: three concrete ranges, all invocations succeeding,
and the non-zero-exit case checked at the second range. -/
theorem split_ranges_in_order_witness :
    ((∀ j, j < (["1-3", "8", "10-12"] : List String).length →
        (fun _ => Split.StepOutcome.success) j = .success) →
       Split.split_pdf "in.pdf" ["1-3", "8", "10-12"] "out" (fun _ => .success) =
         (Split.splitOuts "out" 0 ["1-3", "8", "10-12"],
          Split.splitArgsList "in.pdf" "out" 0 ["1-3", "8", "10-12"],
          .ok (Split.splitOuts "out" 0 ["1-3", "8", "10-12"]))) ∧
    (∀ k st, k < (["1-3", "8", "10-12"] : List String).length →
       (∀ j, j < k → (fun _ => Split.StepOutcome.success) j = .success) →
       (fun _ => Split.StepOutcome.success) k = .nonZero st →
       Split.split_pdf "in.pdf" ["1-3", "8", "10-12"] "out" (fun _ => .success) =
         (Split.splitOuts "out" 0 ((["1-3", "8", "10-12"] : List String).take k),
          Split.splitArgsList "in.pdf" "out" 0 ((["1-3", "8", "10-12"] : List String).take k) ++
            [Split.splitArgsFor "in.pdf" "out" k ((["1-3", "8", "10-12"] : List String).getD k "")],
          .error ("qpdf 拆分失败（" ++ (["1-3", "8", "10-12"] : List String).getD k "" ++ "）：" ++ st))) :=
  split_ranges_in_order "in.pdf" "out" ["1-3", "8", "10-12"] (fun _ => .success) (by simp)

/-- C6 counterexample: two exit paths of the byte-variant compress call
create the work directory but never remove it — a staging write failure, and
a failure of the output-collision check (output equal to the staged temp
path under identity canonicalization). -/
theorem workdir_leak_counterexample :
    Compress.compress_bytes "/tmp" "com.app" 1 ⟨"a.pdf", []⟩ "out.pdf" .tiny id
        true true false (.ok ()) (.ok ()) true =
      ([.ensuredParent, .createWorkDir "/tmp/com_app/compress_1"],
       .error "写入临时文件失败") ∧
    Compress.compress_bytes "/tmp" "com.app" 1 ⟨"a.pdf", []⟩
        "/tmp/com_app/compress_1/a.pdf" .tiny id
        true true true (.ok ()) (.ok ()) true =
      ([.ensuredParent, .createWorkDir "/tmp/com_app/compress_1",
        .wroteTemp "/tmp/com_app/compress_1/a.pdf"],
       .error "输出路径不能与输入文件相同：/tmp/com_app/compress_1/a.pdf") := by
  constructor
  · rfl
  · rfl

/-- C6 amended: on the exit paths reached once staging and the
output-collision check have succeeded — tool success or tool failure — both
the byte-variant compress call and the byte-variant merge call remove their
work directory, and the outcome of the ignored removal (`rmOk`) never
influences the returned result.  (Exits from a staging failure or from the
collision check leave the directory behind, per the counterexample.) -/
theorem workdir_cleanup_after_staging (tmpRoot ident : String) (ts : Nat)
    (pdf : Merge.PdfIn) (outputC : String) (preset : Compress.Preset)
    (canonC : String → String) (gs qpdf : Except String Unit) (rmOk rmOk2 : Bool)
    (hcolC : Compress.assert_output_not_same canonC
        (Compress.workDirOf tmpRoot ident ts ++ "/" ++ Merge.sanitize pdf.name)
        outputC = .ok ())
    (items : List Merge.PdfIn) (outputM : String) (canonM : String → String)
    (runM : Except String Unit) (h2 : 2 ≤ items.length)
    (hcolM : Merge.assert_output_not_in_inputs canonM
        ((List.range items.length).map
          (fun j => Merge.tempPathOf (Merge.workDirOf tmpRoot ident ts) j
            (items.getD j ⟨"", []⟩))) outputM = .ok ()) :
    (Compress.Event.removeWorkDir (Compress.workDirOf tmpRoot ident ts) rmOk ∈
       (Compress.compress_bytes tmpRoot ident ts pdf outputC preset canonC
         true true true gs qpdf rmOk).1) ∧
    (Compress.compress_bytes tmpRoot ident ts pdf outputC preset canonC
        true true true gs qpdf rmOk).2 =
      (Compress.compress_bytes tmpRoot ident ts pdf outputC preset canonC
        true true true gs qpdf rmOk2).2 ∧
    (Merge.Event.removeWorkDir (Merge.workDirOf tmpRoot ident ts) rmOk ∈
       (Merge.merge_bytes tmpRoot ident ts items outputM canonM
         true true none runM rmOk).1) ∧
    (Merge.merge_bytes tmpRoot ident ts items outputM canonM
        true true none runM rmOk).2 =
      (Merge.merge_bytes tmpRoot ident ts items outputM canonM
        true true none runM rmOk2).2 := by
  have hltM : ¬ items.length < 2 := Nat.not_lt.mpr h2
  refine ⟨?_, ?_, ?_, ?_⟩
  · simp only [Compress.compress_bytes, hcolC]
    cases hr : (Compress.run_path preset gs qpdf).2 with
    | ok u => simp [hr]
    | error e => simp [hr]
  · simp only [Compress.compress_bytes, hcolC]
    cases hr : (Compress.run_path preset gs qpdf).2 with
    | ok u => simp [hr]
    | error e => simp [hr]
  · simp only [Merge.merge_bytes, Merge.staging_fails, hcolM, hltM, if_false,
      Bool.true_eq_false]
    cases runM with
    | ok u => simp [hltM]
    | error e => simp [hltM]
  · simp only [Merge.merge_bytes, Merge.staging_fails, hcolM, hltM, if_false,
      Bool.true_eq_false]
    cases runM with
    | ok u => simp [hltM]
    | error e => simp [hltM]

/-- C6 amended witness: concrete byte inputs, identity canonicalization, a
successful tool run, with the two removal outcomes compared. -/
theorem workdir_cleanup_after_staging_witness :
    (Compress.Event.removeWorkDir (Compress.workDirOf "/tmp" "com.app" 1) true ∈
       (Compress.compress_bytes "/tmp" "com.app" 1 ⟨"a.pdf", []⟩ "out.pdf" .tiny id
         true true true (.ok ()) (.ok ()) true).1) ∧
    (Compress.compress_bytes "/tmp" "com.app" 1 ⟨"a.pdf", []⟩ "out.pdf" .tiny id
        true true true (.ok ()) (.ok ()) true).2 =
      (Compress.compress_bytes "/tmp" "com.app" 1 ⟨"a.pdf", []⟩ "out.pdf" .tiny id
        true true true (.ok ()) (.ok ()) false).2 ∧
    (Merge.Event.removeWorkDir (Merge.workDirOf "/tmp" "com.app" 1) true ∈
       (Merge.merge_bytes "/tmp" "com.app" 1 [⟨"a.pdf", []⟩, ⟨"b.pdf", []⟩] "merged.pdf" id
         true true none (.ok ()) true).1) ∧
    (Merge.merge_bytes "/tmp" "com.app" 1 [⟨"a.pdf", []⟩, ⟨"b.pdf", []⟩] "merged.pdf" id
        true true none (.ok ()) true).2 =
      (Merge.merge_bytes "/tmp" "com.app" 1 [⟨"a.pdf", []⟩, ⟨"b.pdf", []⟩] "merged.pdf" id
        true true none (.ok ()) false).2 :=
  workdir_cleanup_after_staging "/tmp" "com.app" 1 ⟨"a.pdf", []⟩ "out.pdf" .tiny id
    (.ok ()) (.ok ()) true false rfl [⟨"a.pdf", []⟩, ⟨"b.pdf", []⟩] "merged.pdf" id
    (.ok ()) (by decide) rfl

namespace Compress

/-- A success of `firstSome` comes from some list element. -/
theorem firstSome_eq_some {α β : Type} (f : α → Option β) :
    ∀ (l : List α) (r : β), firstSome f l = some r → ∃ x, x ∈ l ∧ f x = some r := by
  intro l
  induction l with
  | nil => intro r h; cases h
  | cons a l ih =>
    intro r h
    unfold firstSome at h
    cases hf : f a with
    | some r0 =>
      rw [hf] at h
      exact ⟨a, List.mem_cons_self a l, by rw [hf, h.symm]⟩
    | none =>
      rw [hf] at h
      obtain ⟨x, hx, hfx⟩ := ih r h
      exact ⟨x, List.mem_cons_of_mem a hx, hfx⟩

/-- What an accepted `gsCandidate` guarantees. -/
theorem gsCandidate_sound (fs : DirFS) (base : List String) (r : GsResolved)
    (h : gsCandidate fs base = some r) :
    r = ⟨base, base ++ ["bin"], (base ++ ["bin"]) ++ ["gswin64c.exe"], gsEnvs fs base⟩ ∧
    fs.fileExists ((base ++ ["bin"]) ++ ["gswin64c.exe"]) = true ∧
    fs.isDir (base ++ ["lib"]) = true ∧
    fs.isDir (base ++ ["Resource"]) = true := by
  unfold gsCandidate at h
  by_cases hexe : fs.fileExists ((base ++ ["bin"]) ++ ["gswin64c.exe"]) = true
  · rw [if_pos hexe] at h
    by_cases hsib : fs.isDir (base ++ ["lib"]) = true ∧ fs.isDir (base ++ ["Resource"]) = true
    · rw [if_pos hsib] at h
      exact ⟨(Option.some_inj.mp h).symm, hexe, hsib.1, hsib.2⟩
    · rw [if_neg hsib] at h
      cases h
  · rw [if_neg hexe] at h
    cases h

/-- A success of `find_gs_root` comes from an accepted candidate. -/
theorem find_gs_root_eq_some (fs : DirFS) (root : List String) (r : GsResolved)
    (h : find_gs_root fs root = some r) :
    ∃ base, gsCandidate fs base = some r := by
  unfold find_gs_root at h
  cases hc : gsCandidate fs root with
  | some r0 =>
    rw [hc] at h
    exact ⟨root, by rw [hc, h.symm]⟩
  | none =>
    rw [hc] at h
    obtain ⟨name, _, hf⟩ := firstSome_eq_some _ (fs.readDir root) r h
    by_cases hd : fs.isDir (root ++ [name]) = true
    · rw [if_pos hd] at hf
      exact ⟨root ++ [name], hf⟩
    · rw [if_neg hd] at hf
      cases hf

end Compress

/-- C8: whenever the raster-rewrite tool's locator succeeds, the accepted
candidate has the executable at `base/bin/gswin64c.exe` and both required
sibling directories `base/lib` and `base/Resource`; the returned environment
is the combined `GS_LIB` library-search path over both siblings plus a
`GS_FONTPATH` entry exactly when `base/fonts` is a directory.  Moreover no
candidate whose executable exists but whose required siblings are missing is
ever accepted. -/
theorem find_gs_siblings_required (fs : Compress.DirFS) (roots : List (List String))
    (r : Compress.GsResolved) (h : Compress.find_gs fs roots = some r) :
    fs.fileExists ((r.base ++ ["bin"]) ++ ["gswin64c.exe"]) = true ∧
    fs.isDir (r.base ++ ["lib"]) = true ∧
    fs.isDir (r.base ++ ["Resource"]) = true ∧
    r.bin = r.base ++ ["bin"] ∧
    r.exe = (r.base ++ ["bin"]) ++ ["gswin64c.exe"] ∧
    r.envs = [("GS_LIB", Compress.pathDisplay (r.base ++ ["lib"]) ++ ";" ++
                Compress.pathDisplay (r.base ++ ["Resource"]))] ++
      (if fs.isDir (r.base ++ ["fonts"]) = true then
        [("GS_FONTPATH", Compress.pathDisplay (r.base ++ ["fonts"]))] else []) ∧
    (∀ base, fs.fileExists ((base ++ ["bin"]) ++ ["gswin64c.exe"]) = true →
       ¬(fs.isDir (base ++ ["lib"]) = true ∧ fs.isDir (base ++ ["Resource"]) = true) →
       Compress.gsCandidate fs base = none) := by
  obtain ⟨root, _, hroot⟩ := Compress.firstSome_eq_some _ roots r h
  obtain ⟨base, hcand⟩ := Compress.find_gs_root_eq_some fs root r hroot
  obtain ⟨hr, hexe, hlib, hres⟩ := Compress.gsCandidate_sound fs base r hcand
  subst hr
  refine ⟨hexe, hlib, hres, rfl, rfl, ?_, ?_⟩
  · unfold Compress.gsEnvs
    by_cases hf : fs.isDir (base ++ ["fonts"]) = true
    · rw [if_pos hf, if_pos hf]
    · rw [if_neg hf, if_neg hf]
      rfl
  · intro b hbexe hbsib
    unfold Compress.gsCandidate
    rw [if_pos hbexe, if_neg hbsib]

/-- C8 witness: a flat layout with executable, `lib`, `Resource` and `fonts`
all present under one root, run through the locator soundness theorem. -/
theorem find_gs_siblings_required_witness :
    Compress.flatLayoutFS.fileExists (((["root"] : List String) ++ ["bin"]) ++ ["gswin64c.exe"]) = true ∧
    Compress.flatLayoutFS.isDir ((["root"] : List String) ++ ["lib"]) = true ∧
    Compress.flatLayoutFS.isDir ((["root"] : List String) ++ ["Resource"]) = true ∧
    (["root", "bin"] : List String) = ["root"] ++ ["bin"] ∧
    (["root", "bin", "gswin64c.exe"] : List String) = (["root"] ++ ["bin"]) ++ ["gswin64c.exe"] ∧
    ([("GS_LIB", "root/lib;root/Resource"), ("GS_FONTPATH", "root/fonts")] : List (String × String)) =
      [("GS_LIB", Compress.pathDisplay ((["root"] : List String) ++ ["lib"]) ++ ";" ++
          Compress.pathDisplay ((["root"] : List String) ++ ["Resource"]))] ++
      (if Compress.flatLayoutFS.isDir ((["root"] : List String) ++ ["fonts"]) = true then
        [("GS_FONTPATH", Compress.pathDisplay ((["root"] : List String) ++ ["fonts"]))] else []) ∧
    (∀ base, Compress.flatLayoutFS.fileExists ((base ++ ["bin"]) ++ ["gswin64c.exe"]) = true →
       ¬(Compress.flatLayoutFS.isDir (base ++ ["lib"]) = true ∧
         Compress.flatLayoutFS.isDir (base ++ ["Resource"]) = true) →
       Compress.gsCandidate Compress.flatLayoutFS base = none) :=
  find_gs_siblings_required Compress.flatLayoutFS [["root"]]
    ⟨["root"], ["root", "bin"], ["root", "bin", "gswin64c.exe"],
     [("GS_LIB", "root/lib;root/Resource"), ("GS_FONTPATH", "root/fonts")]⟩ rfl

/-- C2: an export whose payload fails base64 decoding is rejected with the
decode-failure code, and one whose decoded bytes lack the `%PDF-` header or
the `%%EOF` trailer within the final bytes is rejected with the
invalid-document code (the spec's PayloadInvalid covers both); in either
case the filesystem is unchanged and the trace holds only the Prepare event
and the terminal error — no file write happens before the rejection. -/
theorem export_payload_invalid (fs : Sign.FS) (payload : Sign.Payload)
    (dialog : Option Sign.Path) (tmpName : String) :
    (Sign.decode_b64 payload.pdfBytesB64 = none →
       Sign.sign_and_export_pdf fs payload dialog tmpName =
         (fs, [.prepare, .error .eInvalidArg], .error .eInvalidArg)) ∧
    (∀ bytes, Sign.decode_b64 payload.pdfBytesB64 = some bytes →
       Sign.validate_pdf bytes = false →
       Sign.sign_and_export_pdf fs payload dialog tmpName =
         (fs, [.prepare, .error .eInvalidPdf], .error .eInvalidPdf)) := by
  constructor
  · intro hdec
    simp only [Sign.sign_and_export_pdf, hdec]
    rfl
  · intro bytes hdec hval
    simp only [Sign.sign_and_export_pdf, hdec, hval, if_true]
    rfl

/-- C2 witness: a payload that is not valid base64, and one that decodes to
bytes lacking the `%PDF-` header. -/
theorem export_payload_invalid_witness :
    (Sign.decode_b64 "%%%" = none →
       Sign.sign_and_export_pdf ⟨[], [[]]⟩ ⟨"%%%", none, some ["out.pdf"], some false⟩ none "tmp1" =
         (⟨[], [[]]⟩, [.prepare, .error .eInvalidArg], .error .eInvalidArg)) ∧
    (∀ bytes, Sign.decode_b64 "%%%" = some bytes →
       Sign.validate_pdf bytes = false →
       Sign.sign_and_export_pdf ⟨[], [[]]⟩ ⟨"%%%", none, some ["out.pdf"], some false⟩ none "tmp1" =
         (⟨[], [[]]⟩, [.prepare, .error .eInvalidPdf], .error .eInvalidPdf)) :=
  export_payload_invalid ⟨[], [[]]⟩ ⟨"%%%", none, some ["out.pdf"], some false⟩ none "tmp1"

namespace Sign

/-- Setting a file makes it readable with exactly the written bytes. -/
theorem lookupFile_setFile (fs : FS) (p : Path) (d : Bytes) :
    (fs.setFile p d).lookupFile p = some d := by
  unfold FS.setFile FS.lookupFile
  simp [lookupF]

/-- Behaviour of `atomic_write_all` in a writable configuration: the temp file is created
in the destination's directory, filled, flushed and synced; the destination
is removed first exactly when overwrite is permitted and it exists; the temp
file is then renamed onto the destination. -/
theorem atomic_write_all_spec (fs : FS) (path : Path) (data : Bytes)
    (overwrite : Bool) (tmpName : String)
    (hne : path ≠ [])
    (hdir : fs.dirExists path.dropLast = true)
    (hnoc : ¬(¬ overwrite ∧ fs.fileExists path)) :
    atomic_write_all fs path data overwrite tmpName =
      (((if overwrite ∧ fs.fileExists path then
           (fs.setFile (path.dropLast ++ [tmpName]) data).removeFile path
         else fs.setFile (path.dropLast ++ [tmpName]) data).removeFile
          (path.dropLast ++ [tmpName])).setFile path data,
       [.createTempIn path.dropLast tmpName, .writeTemp data, .flushTemp, .syncTemp] ++
         (if overwrite ∧ fs.fileExists path then [Event.removeFile path] else []) ++
         [.renameTempTo path],
       .ok data.length) := by
  unfold atomic_write_all
  rw [if_neg hne, if_neg (by simp [hdir]), if_neg hnoc]
  by_cases hov : overwrite ∧ fs.fileExists path
  · simp only [if_pos hov]
  · simp only [if_neg hov]

end Sign

/-- C1: when the destination already exists and overwrite is not permitted,
the export returns the destination-conflict error with the filesystem (and
so the destination's bytes) unchanged; when the export succeeds, the trace
shows all payload bytes written, flushed and durably synced to a temp file
created in the destination's own directory, the existing destination removed
first exactly when overwrite is permitted, and the temp file then atomically
renamed into place, after which the destination holds exactly the payload
bytes. -/
theorem export_conflict_and_atomic_commit (fs : Sign.FS) (payload : Sign.Payload)
    (dialog : Option Sign.Path) (tmpName : String) (bytes : Sign.Bytes)
    (outPath : Sign.Path) (overwrite : Bool)
    (hdec : Sign.decode_b64 payload.pdfBytesB64 = some bytes)
    (hval : Sign.validate_pdf bytes = true)
    (hout : Sign.resolve_output_path payload dialog = outPath)
    (hne : outPath ≠ [])
    (hov : payload.overwrite.getD false = overwrite) :
    ((overwrite = false ∧ fs.fileExists outPath = true) →
       Sign.sign_and_export_pdf fs payload dialog tmpName =
         (fs, [.prepare, .error .eExists], .error .eExists)) ∧
    (∀ n, (Sign.sign_and_export_pdf fs payload dialog tmpName).2.2 = .ok n →
       (Sign.sign_and_export_pdf fs payload dialog tmpName).2.1 =
         [.prepare, .write, .createTempIn outPath.dropLast tmpName,
          .writeTemp bytes, .flushTemp, .syncTemp] ++
         (if overwrite ∧ fs.fileExists outPath then [Sign.Event.removeFile outPath] else []) ++
         [.renameTempTo outPath, .done outPath] ∧
       (Sign.sign_and_export_pdf fs payload dialog tmpName).1.lookupFile outPath =
         some bytes ∧
       n = ⟨outPath, bytes.length⟩) := by
  have hv' : ¬ Sign.validate_pdf bytes = false := by simp [hval]
  have hred : Sign.sign_and_export_pdf fs payload dialog tmpName =
      (if ¬ overwrite ∧ fs.fileExists outPath then
        (fs, [.prepare, .error .eExists], .error .eExists)
      else
        match (Sign.atomic_write_all fs outPath bytes overwrite tmpName).2.2 with
        | .error c =>
          ((Sign.atomic_write_all fs outPath bytes overwrite tmpName).1,
           [Sign.Event.prepare, Sign.Event.write] ++
             (Sign.atomic_write_all fs outPath bytes overwrite tmpName).2.1 ++
             [Sign.Event.error c], .error c)
        | .ok n =>
          ((Sign.atomic_write_all fs outPath bytes overwrite tmpName).1,
           [Sign.Event.prepare, Sign.Event.write] ++
             (Sign.atomic_write_all fs outPath bytes overwrite tmpName).2.1 ++
             [Sign.Event.done outPath], .ok ⟨outPath, n⟩)) := by
    simp only [Sign.sign_and_export_pdf, hdec]
    rw [if_neg hv']
    rw [hout, hov]
    rw [if_neg hne]
    by_cases hcond : ¬ overwrite ∧ fs.fileExists outPath
    · rw [if_pos hcond, if_pos hcond]
      rfl
    · rw [if_neg hcond, if_neg hcond]
      cases hw : (Sign.atomic_write_all fs outPath bytes overwrite tmpName).2.2 with
      | error c => rfl
      | ok m => rfl
  constructor
  · rintro ⟨ho, hex⟩
    rw [hred, if_pos (by simp [ho, hex])]
  · intro n hok
    rw [hred] at hok ⊢
    by_cases hcond : ¬ overwrite ∧ fs.fileExists outPath
    · exfalso
      rw [if_pos hcond] at hok
      simp at hok
    · rw [if_neg hcond] at hok ⊢
      by_cases hdir : fs.dirExists outPath.dropLast = true
      · have hw := Sign.atomic_write_all_spec fs outPath bytes overwrite tmpName hne hdir hcond
        simp only [hw] at hok ⊢
        refine ⟨?_, ?_, ?_⟩
        · simp
        · exact Sign.lookupFile_setFile _ _ _
        · simp at hok
          exact hok.symm
      · exfalso
        have hperm : Sign.atomic_write_all fs outPath bytes overwrite tmpName =
            (fs, [], .error .ePermission) := by
          simp only [Sign.atomic_write_all]
          rw [if_neg hne, if_pos hdir]
        rw [hperm] at hok
        simp at hok

/-- C1 witness: a concrete valid payload (`%PDF-1.4 %%EOF`), an existing
destination `d/out.pdf` and no overwrite permission. -/
theorem export_conflict_and_atomic_commit_witness :
    ((false = false ∧
        (Sign.FS.mk [(["d", "out.pdf"], [0])] [["d"]]).fileExists ["d", "out.pdf"] = true) →
       Sign.sign_and_export_pdf ⟨[(["d", "out.pdf"], [0])], [["d"]]⟩
           ⟨"JVBERi0xLjQgJSVFT0Y=", none, some ["d", "out.pdf"], some false⟩ none "tmp1" =
         (⟨[(["d", "out.pdf"], [0])], [["d"]]⟩, [.prepare, .error .eExists], .error .eExists)) ∧
    (∀ n, (Sign.sign_and_export_pdf ⟨[(["d", "out.pdf"], [0])], [["d"]]⟩
             ⟨"JVBERi0xLjQgJSVFT0Y=", none, some ["d", "out.pdf"], some false⟩ none "tmp1").2.2 = .ok n →
       (Sign.sign_and_export_pdf ⟨[(["d", "out.pdf"], [0])], [["d"]]⟩
           ⟨"JVBERi0xLjQgJSVFT0Y=", none, some ["d", "out.pdf"], some false⟩ none "tmp1").2.1 =
         [.prepare, .write, .createTempIn (["d", "out.pdf"] : Sign.Path).dropLast "tmp1",
          .writeTemp [37, 80, 68, 70, 45, 49, 46, 52, 32, 37, 37, 69, 79, 70],
          .flushTemp, .syncTemp] ++
         (if (false : Bool) ∧ (Sign.FS.mk [(["d", "out.pdf"], [0])] [["d"]]).fileExists ["d", "out.pdf"] then
           [Sign.Event.removeFile ["d", "out.pdf"]] else []) ++
         [.renameTempTo ["d", "out.pdf"], .done ["d", "out.pdf"]] ∧
       (Sign.sign_and_export_pdf ⟨[(["d", "out.pdf"], [0])], [["d"]]⟩
           ⟨"JVBERi0xLjQgJSVFT0Y=", none, some ["d", "out.pdf"], some false⟩ none "tmp1").1.lookupFile
           ["d", "out.pdf"] = some [37, 80, 68, 70, 45, 49, 46, 52, 32, 37, 37, 69, 79, 70] ∧
       n = ⟨["d", "out.pdf"], ([37, 80, 68, 70, 45, 49, 46, 52, 32, 37, 37, 69, 79, 70] : Sign.Bytes).length⟩) :=
  export_conflict_and_atomic_commit ⟨[(["d", "out.pdf"], [0])], [["d"]]⟩
    ⟨"JVBERi0xLjQgJSVFT0Y=", none, some ["d", "out.pdf"], some false⟩ none "tmp1"
    [37, 80, 68, 70, 45, 49, 46, 52, 32, 37, 37, 69, 79, 70] ["d", "out.pdf"] false
    rfl rfl rfl (by simp) rfl

set_option maxRecDepth 1000000 in
/-- C10: for two concurrent export calls, in every schedule that is an
interleaving of the two calls' step sequences and respects the export
lock's mutual exclusion, the call acquiring the lock first emits its
terminal event before the other call emits Prepare (so the second call
blocks until the first reaches a terminal state and at most one export is
in flight), and the destination finally holds exactly one of the two
payloads. -/
theorem export_serialization (tr : List Conc.TStep)
    (hmem : tr ∈ Conc.allSchedules) (hlock : Conc.lockOk none tr = true) :
    Conc.serializedOk tr = true := by
  have hall : Conc.allSchedules.all
      (fun t => !Conc.lockOk none t || Conc.serializedOk t) = true := by decide
  have hthis := List.all_eq_true.mp hall tr hmem
  simp only [hlock, Bool.not_true, Bool.false_or] at hthis
  exact hthis

set_option maxRecDepth 1000000 in
/-- C10 witness: the fully serial schedule (first call runs to completion,
then the second). -/
theorem export_serialization_witness :
    Conc.serializedOk (Conc.exportProg false ++ Conc.exportProg true) = true :=
  export_serialization (Conc.exportProg false ++ Conc.exportProg true)
    (by decide) (by decide)
